import Mathlib

/-!
Shallow embedding of the link-management component of the ShortenerLinks
Node backend (the Fastify route handlers in the routes module together with
the drizzle table schema).  Pure data is embedded directly; the database is
an explicit list of rows threaded through each handler; fallible storage
operations return Except.  Timestamps are epoch milliseconds (Nat).
-/

namespace Brevly

/-- A row of the links table: serial primary key, unique varchar(10) code,
text original_url, timestamp created_at (epoch milliseconds), integer
access_count defaulting to 0. -/
structure Link where
  id : Nat
  code : String
  original_url : String
  created_at : Nat
  access_count : Nat
deriving Repr, DecidableEq

/-- The links table, in insertion order. -/
abbrev Store := List Link

/-- Modelled from the spec: the nanoid generator is an external dependency
(not under src); the spec describes its output as a random alphanumeric
code of fixed length.  The randomness is the seed argument. -/
def alphanumChars : List Char :=
  "ABCDEFGHIJKLMNOPQRSTUVWXYZabcdefghijklmnopqrstuvwxyz0123456789".data

theorem alphanumChars_length : alphanumChars.length = 62 := rfl

/-- Modelled from the spec: nanoid seed len is a len-character string over
the alphanumeric alphabet, determined by the random seed. -/
def nanoid (seed len : Nat) : String :=
  String.mk ((List.range len).map (fun i =>
    alphanumChars.get ⟨(seed / 62 ^ i) % 62, by
      rw [alphanumChars_length]; exact Nat.mod_lt _ (by norm_num)⟩))

/-- dropPat pat cs returns the remainder of cs after pat, when pat starts cs. -/
def dropPat : List Char → List Char → Option (List Char)
  | [], rest => some rest
  | _ :: _, [] => none
  | p :: ps, c :: cs => if p = c then dropPat ps cs else none

/-- Remove the first occurrence of pat from the character list
(JavaScript String.replace with a string pattern and empty replacement
replaces only the first occurrence, anywhere in the string). -/
def removeFirst (pat : List Char) : List Char → List Char
  | [] => []
  | c :: cs =>
    match dropPat pat (c :: cs) with
    | some rest => rest
    | none => c :: removeFirst pat cs

/-- JavaScript s.replace(pat, two-quote empty string): drop the first
occurrence of pat from s, or return s unchanged when pat does not occur. -/
def replaceFirst (s pat : String) : String :=
  String.mk (removeFirst pat.data s.data)

/-- Modelled from the spec: the zod string().url() validator is dependency
internals not under src; the spec requires original_url to be a
syntactically valid absolute URL, i.e. a scheme followed by the literal
separator and a nonempty remainder. -/
def hasSchemeSep : List Char → Bool
  | ':' :: '/' :: '/' :: rest => !rest.isEmpty
  | _ :: cs => hasSchemeSep cs
  | [] => false

/-- Modelled from the spec: absolute-URL syntax check standing in for zod
string().url(). -/
def isValidUrl (s : String) : Bool :=
  match s.data with
  | [] => false
  | c :: _ => c.isAlpha && hasSchemeSep s.data

/-- JavaScript a or-else b where a is an optional string: undefined and the
empty string are falsy. -/
def jsOr (a : Option String) (b : String) : String :=
  match a with
  | none => b
  | some s => if s = "" then b else s

/-- Final code resolution of the create handler: the cleaned custom_name
(custom_name with the first occurrence of the literal brev.ly/ removed,
when custom_name is supplied), or else the caller code, or else the
generated code. -/
def resolveCode (custom_name inputCode : Option String) (generated : String) : String :=
  let cleanedCustomName := custom_name.map (fun s => replaceFirst s "brev.ly/")
  jsOr cleanedCustomName (jsOr inputCode generated)

/-- db.query.links.findFirst with an equality condition on code. -/
def findFirstByCode (s : Store) (c : String) : Option Link :=
  s.find? (fun l => l.code == c)

/-- db.update(links).set(access_count plus 1).where(id = i): the new count
is computed by the storage layer from the stored row, not from a value the
application read earlier. -/
def incrementById (s : Store) (i : Nat) : Store :=
  s.map (fun l => if l.id = i then { l with access_count := l.access_count + 1 } else l)

/-- The serial primary key: one more than the largest id ever used, modelled
as max of current ids plus one. -/
def nextId (s : Store) : Nat :=
  s.foldr (fun l acc => max l.id acc) 0 + 1

/-- Storage errors the insert can raise: the unique-constraint violation
(PostgresError 23505) and the varchar(10) overflow (any other error). -/
inductive DbError where
  | uniqueViolation
  | valueTooLong
deriving Repr, DecidableEq

/-- db.insert(links).values(...): the varchar(10) column rejects codes over
10 characters, the unique constraint rejects duplicate codes, and otherwise
a fresh row with access_count 0 is appended. -/
def insertLink (s : Store) (url c : String) (now : Nat) : Except DbError (Link × Store) :=
  if 10 < c.length then .error .valueTooLong
  else if s.any (fun l => l.code == c) then .error .uniqueViolation
  else
    let l : Link := { id := nextId s, code := c, original_url := url,
                      created_at := now, access_count := 0 }
    .ok (l, s ++ [l])

/-- Outcome of GET /:code.  Modelled from the spec: the handler calls
reply.redirect(original_url, 301) and the spec reads this as a permanent
(301) redirect; the transport internals are not under src. -/
inductive RedirectResult where
  | moved301 (url : String)
  | notFound
  | invalid
deriving Repr, DecidableEq

/-- GET /:code — redirect mode: validate the path param (min length 3),
find the link by code, 404 when absent, otherwise increment access_count
at the storage layer and redirect permanently to original_url. -/
def redirectLink (c : String) (s : Store) : RedirectResult × Store :=
  if c.length < 3 then (.invalid, s)
  else
    match findFirstByCode s c with
    | none => (.notFound, s)
    | some l => (.moved301 l.original_url, incrementById s l.id)

/-- The JSON body of the data-mode lookup: all fields plus short_url. -/
structure LinkView where
  id : Nat
  code : String
  original_url : String
  access_count : Nat
  created_at : Nat
  short_url : String
deriving Repr, DecidableEq

/-- The projection used by the data-mode lookup and the listing: every
column plus short_url, the public base URL joined with a slash and the
code. -/
def viewOf (base : String) (l : Link) : LinkView :=
  { id := l.id, code := l.code, original_url := l.original_url,
    access_count := l.access_count, created_at := l.created_at,
    short_url := base ++ "/" ++ l.code }

/-- Outcome of GET /api/links/:code. -/
inductive DataResult where
  | found (v : LinkView)
  | notFound
  | invalid
deriving Repr, DecidableEq

/-- GET /api/links/:code — data mode: validate the path param, find by
code, 404 when absent, otherwise return the fields plus short_url; no
update statement runs. -/
def getLinkData (base c : String) (s : Store) : DataResult × Store :=
  if c.length < 3 then (.invalid, s)
  else
    match findFirstByCode s c with
    | none => (.notFound, s)
    | some l => (.found (viewOf base l), s)

/-- Outcome of POST /api/links/:code/visit. -/
inductive VisitResult where
  | success
  | notFound
  | invalid
deriving Repr, DecidableEq

/-- POST /api/links/:code/visit: validate the path param, find by code
(the or(...) in the source has a single live disjunct, equality on code;
the custom_name disjunct is commented out), 404 when absent, otherwise
the same storage-layer increment as redirect mode and a success body,
with no redirect. -/
def visitLink (c : String) (s : Store) : VisitResult × Store :=
  if c.length < 3 then (.invalid, s)
  else
    match findFirstByCode s c with
    | none => (.notFound, s)
    | some l => (.success, incrementById s l.id)

/-- Outcome of POST /api/links. -/
inductive CreateResult where
  | created (id : Nat) (code shortUrl : String)
  | invalid
  | conflict
  | serverError
deriving Repr, DecidableEq

/-- zod z.string().min(3).optional(): missing is fine, a present value
must have at least 3 characters. -/
def optMin3 : Option String → Bool
  | none => true
  | some s => 3 ≤ s.length

/-- POST /api/links: validate the body, resolve the final code, insert
optimistically; a unique-constraint violation becomes a 400 conflict, any
other storage error becomes a 500, success returns id, code and shortUrl. -/
def createLink (base generated : String) (now : Nat)
    (original_url : String) (inputCode custom_name : Option String)
    (s : Store) : CreateResult × Store :=
  if isValidUrl original_url && optMin3 inputCode && optMin3 custom_name then
    let c := resolveCode custom_name inputCode generated
    match insertLink s original_url c now with
    | .ok (l, s2) => (.created l.id l.code (base ++ "/" ++ l.code), s2)
    | .error .uniqueViolation => (.conflict, s)
    | .error _ => (.serverError, s)
  else (.invalid, s)

/-- Ordering relation of the listing and the export: newest created_at
first. -/
def byNewest (a b : Link) : Prop := b.created_at ≤ a.created_at

instance : DecidableRel byNewest := fun a b => Nat.decLe b.created_at a.created_at

instance : IsTotal Link byNewest := ⟨fun a b => le_total b.created_at a.created_at⟩

instance : IsTrans Link byNewest := ⟨fun _ _ _ h1 h2 => le_trans h2 h1⟩

/-- orderBy(desc(links.created_at)). -/
def sortByCreatedDesc (s : Store) : Store := List.insertionSort byNewest s

/-- GET /api/links: order newest first, skip (page - 1) * pageSize rows,
take pageSize rows, project each with short_url; a pure read. -/
def listLinks (base : String) (page pageSize : Nat) (s : Store) : List LinkView × Store :=
  ((((sortByCreatedDesc s).drop ((page - 1) * pageSize)).take pageSize).map (viewOf base), s)

/-- zod z.coerce.number().min(1).default(1) on the page query parameter:
a missing value defaults to 1, a present coerced number must be at least
1; no integrality is required. -/
def parsePage : Option ℚ → Option ℚ
  | none => some 1
  | some x => if 1 ≤ x then some x else none

/-- zod z.coerce.number().min(10).max(100).default(10) on the pageSize
query parameter. -/
def parsePageSize : Option ℚ → Option ℚ
  | none => some 10
  | some y => if 10 ≤ y ∧ y ≤ 100 then some y else none

/-- The parsed listing query: both parameters must validate. -/
def parseListQuery (p q : Option ℚ) : Option (ℚ × ℚ) :=
  match parsePage p, parsePageSize q with
  | some a, some b => some (a, b)
  | _, _ => none

/-- Left-pad a decimal rendering with zeros to the given width, as the
toISOString output format does. -/
def pad (width n : Nat) : String :=
  let s := toString n
  String.mk (List.replicate (width - s.length) '0') ++ s

/-- Proleptic-Gregorian civil date (year, month, day) of a day count since
1970-01-01, the date arithmetic behind Date.prototype.toISOString. -/
def civilFromDays (z : Nat) : Nat × Nat × Nat :=
  let z2 := z + 719468
  let era := z2 / 146097
  let doe := z2 % 146097
  let yoe := (doe - doe / 1460 + doe / 36524 - doe / 146096) / 365
  let y := yoe + era * 400
  let doy := doe - (365 * yoe + yoe / 4 - yoe / 100)
  let mp := (5 * doy + 2) / 153
  let d := doy - (153 * mp + 2) / 5 + 1
  let m := if mp < 10 then mp + 3 else mp - 9
  (if m ≤ 2 then y + 1 else y, m, d)

/-- Date.prototype.toISOString on an epoch-millisecond timestamp:
YYYY-MM-DDTHH:mm:ss.sssZ in UTC. -/
def toISOString (t : Nat) : String :=
  let ms := t % 1000
  let totalSecs := t / 1000
  let ss := totalSecs % 60
  let totalMins := totalSecs / 60
  let mi := totalMins % 60
  let totalHours := totalMins / 60
  let hh := totalHours % 24
  let days := totalHours / 24
  let ymd := civilFromDays days
  pad 4 ymd.1 ++ "-" ++ pad 2 ymd.2.1 ++ "-" ++ pad 2 ymd.2.2 ++ "T" ++
    pad 2 hh ++ ":" ++ pad 2 mi ++ ":" ++ pad 2 ss ++ "." ++ pad 3 ms ++ "Z"

/-- JavaScript Array.prototype.join with a separator string. -/
def joinWith (sep : String) : List String → String
  | [] => ""
  | [x] => x
  | x :: xs => x ++ sep ++ joinWith sep xs

/-- The fixed CSV header row written by the export, newline included. -/
def csvHeader : String := "URL original,URL encurtada,Contagem de acessos,Data de criação\n"

/-- One CSV body row: original_url, the computed short URL, the access
count, and created_at rendered by toISOString, comma-separated with no
quoting. -/
def csvRow (base : String) (l : Link) : String :=
  l.original_url ++ "," ++ (base ++ "/" ++ l.code) ++ "," ++
    toString l.access_count ++ "," ++ toISOString l.created_at

/-- Outcome of POST /api/links/export/csv. -/
inductive ExportResult where
  | created (csvUrl : String)
  | badRequest
deriving Repr, DecidableEq

/-- POST /api/links/export/csv: read every row newest first; an empty set
is a 400 and nothing is uploaded; otherwise the header plus the joined
body rows are uploaded under the random uuid with a .csv extension and
the public base URL joined with a slash and the key is returned.  The
second component is the list of (key, content) uploads performed. -/
def exportCsv (base uuid : String) (s : Store) : ExportResult × List (String × String) :=
  let allLinks := sortByCreatedDesc s
  if allLinks.length = 0 then (.badRequest, [])
  else
    let content := csvHeader ++ joinWith "\n" (allLinks.map (csvRow base))
    let key := uuid ++ ".csv"
    (.created (base ++ "/" ++ key), [(key, content)])

/-- Number of newline characters in a string. -/
def newlineCount (s : String) : Nat :=
  (s.data.filter (fun ch => ch == '\n')).length

/-- Number of CSV rows of a file with no trailing newline. -/
def csvRowCount (s : String) : Nat := newlineCount s + 1

/-- The part of a string before its first newline. -/
def firstLine (s : String) : String :=
  String.mk (s.data.takeWhile (fun ch => ch != '\n'))

/-- Sum of all access counters in the store. -/
def totalAccess (s : Store) : Nat := (s.map Link.access_count).sum

/-- Outcome of DELETE /api/links/:code. -/
inductive DeleteResult where
  | noContent
  | notFound
  | invalid
deriving Repr, DecidableEq

/-- DELETE /api/links/:code: validate the path param, delete the rows
whose code matches and look at the returned rows; none deleted is a 404,
otherwise a 204 with no content. -/
def deleteLink (c : String) (s : Store) : DeleteResult × Store :=
  if c.length < 3 then (.invalid, s)
  else
    let deleted := s.filter (fun l => l.code == c)
    let s2 := s.filter (fun l => !(l.code == c))
    match deleted with
    | [] => (.notFound, s2)
    | _ :: _ => (.noContent, s2)

/-! ### Shared lemmas about the storage operations -/

theorem findFirstByCode_eq_none_iff {s : Store} {c : String} :
    findFirstByCode s c = none ↔ ∀ l ∈ s, l.code ≠ c := by
  unfold findFirstByCode
  rw [List.find?_eq_none]
  simp

theorem findFirstByCode_mem {s : Store} {c : String} {l : Link}
    (h : findFirstByCode s c = some l) : l ∈ s ∧ l.code = c := by
  refine ⟨List.mem_of_find?_eq_some h, ?_⟩
  simpa using List.find?_some h

theorem length_incrementById (s : Store) (i : Nat) :
    (incrementById s i).length = s.length :=
  List.length_map ..

theorem mem_incrementById_of_ne {s : Store} {i : Nat} {x : Link}
    (hx : x ∈ s) (h : x.id ≠ i) : x ∈ incrementById s i := by
  unfold incrementById
  exact List.mem_map.mpr ⟨x, hx, if_neg h⟩

theorem bumped_mem_incrementById {s : Store} {i : Nat} {l : Link}
    (hl : l ∈ s) (h : l.id = i) :
    { l with access_count := l.access_count + 1 } ∈ incrementById s i := by
  unfold incrementById
  exact List.mem_map.mpr ⟨l, hl, if_pos h⟩

theorem incrementById_of_not_mem {s : Store} {i : Nat}
    (h : ∀ l ∈ s, l.id ≠ i) : incrementById s i = s := by
  unfold incrementById
  rw [List.map_congr_left fun a ha => if_neg (h a ha)]
  exact List.map_id s

theorem totalAccess_incrementById {s : Store} {i : Nat}
    (hnodup : (s.map Link.id).Nodup) {l : Link} (hl : l ∈ s) (hid : l.id = i) :
    totalAccess (incrementById s i) = totalAccess s + 1 := by
  induction s with
  | nil => cases hl
  | cons x xs ih =>
    rw [List.map_cons, List.nodup_cons] at hnodup
    rcases List.mem_cons.mp hl with rfl | hmem
    · have hxs : ∀ y ∈ xs, y.id ≠ i := fun y hy hyi =>
        hnodup.1 (by rw [hid, ← hyi]; exact List.mem_map_of_mem Link.id hy)
      have hrest : incrementById xs i = xs := incrementById_of_not_mem hxs
      simp only [incrementById, totalAccess, List.map_cons, List.sum_cons, if_pos hid] at *
      rw [hrest]
      omega
    · have hx : x.id ≠ i := fun hxi =>
        hnodup.1 (by rw [hxi, ← hid]; exact List.mem_map_of_mem Link.id hmem)
      have := ih hnodup.2 hmem
      simp only [incrementById, totalAccess, List.map_cons, List.sum_cons, if_neg hx] at *
      omega

theorem filter_code_single {s : Store} {c : String}
    (hnodup : (s.map Link.code).Nodup) {l : Link} (hl : l ∈ s) (hc : l.code = c) :
    s.filter (fun x => x.code == c) = [l] := by
  induction s with
  | nil => cases hl
  | cons x xs ih =>
    rw [List.map_cons, List.nodup_cons] at hnodup
    rcases List.mem_cons.mp hl with rfl | hmem
    · have hxs : ∀ y ∈ xs, y.code ≠ c := fun y hy hyc =>
        hnodup.1 (by rw [hc, ← hyc]; exact List.mem_map_of_mem Link.code hy)
      rw [List.filter_cons_of_pos (by simp [hc])]
      have : xs.filter (fun x => x.code == c) = [] :=
        List.filter_eq_nil_iff.mpr (fun a ha => by simp [hxs a ha])
      rw [this]
    · have hx : x.code ≠ c := fun hxc =>
        hnodup.1 (by rw [hxc, ← hc]; exact List.mem_map_of_mem Link.code hmem)
      rw [List.filter_cons_of_neg (by simp [hx])]
      exact ih hnodup.2 hmem

/-- A concrete stored link used by the witnesses. -/
def demoLink : Link :=
  { id := 1, code := "abc", original_url := "https://example.com",
    created_at := 0, access_count := 0 }

/-! ### C3: data mode lookup -/

/-- C3: the data-mode lookup GET /api/links/:code leaves the store — in
particular every access_count — unchanged on every path; an absent code
yields not-found and a present code yields all fields plus the computed
short_url. -/
theorem data_mode_lookup_pure (base c : String) (s : Store) :
    (getLinkData base c s).2 = s ∧
    (3 ≤ c.length → findFirstByCode s c = none → (getLinkData base c s).1 = .notFound) ∧
    (∀ l, 3 ≤ c.length → findFirstByCode s c = some l →
      (getLinkData base c s).1 = .found
        { id := l.id, code := l.code, original_url := l.original_url,
          access_count := l.access_count, created_at := l.created_at,
          short_url := base ++ "/" ++ l.code }) := by
  refine ⟨?_, ?_, ?_⟩
  · by_cases h : c.length < 3
    · simp [getLinkData, h]
    · simp only [getLinkData, if_neg h]
      cases hfind : findFirstByCode s c <;> simp
  · intro h3 hnone
    have h : ¬ c.length < 3 := by omega
    simp [getLinkData, h, hnone]
  · intro l h3 hfind
    have h : ¬ c.length < 3 := by omega
    simp [getLinkData, h, hfind, viewOf]

/-- Witness for C3 at a concrete store: the lookup of an existing code
returns the view and leaves the store untouched. -/
theorem data_mode_lookup_pure_witness :
    (getLinkData "https://brev.ly" "abc" [demoLink]).2 = [demoLink] ∧
    (getLinkData "https://brev.ly" "abc" [demoLink]).1 = .found
      { id := 1, code := "abc", original_url := "https://example.com",
        access_count := 0, created_at := 0, short_url := "https://brev.ly/abc" } := by
  have h := data_mode_lookup_pure "https://brev.ly" "abc" [demoLink]
  exact ⟨h.1, h.2.2 demoLink (by decide) (by decide)⟩

/-! ### C4: redirect mode -/

/-- C4: redirect mode GET /:code — an absent code is not-found with no
state change; a present code gets exactly its access_count incremented by
exactly one (the new value computed from the stored row) and a permanent
301 redirect to the stored original_url is returned. -/
theorem redirect_mode_increments (c : String) (s : Store)
    (h3 : 3 ≤ c.length) (hnodup : (s.map Link.id).Nodup) :
    (findFirstByCode s c = none → redirectLink c s = (.notFound, s)) ∧
    (∀ l, findFirstByCode s c = some l →
      (redirectLink c s).1 = .moved301 l.original_url ∧
      (redirectLink c s).2 = incrementById s l.id ∧
      totalAccess (redirectLink c s).2 = totalAccess s + 1 ∧
      { l with access_count := l.access_count + 1 } ∈ (redirectLink c s).2 ∧
      (∀ x ∈ s, x.id ≠ l.id → x ∈ (redirectLink c s).2) ∧
      (redirectLink c s).2.length = s.length) := by
  have hcond : ¬ c.length < 3 := by omega
  constructor
  · intro hnone
    simp [redirectLink, hcond, hnone]
  · intro l hfind
    obtain ⟨hmem, _⟩ := findFirstByCode_mem hfind
    simp only [redirectLink, if_neg hcond, hfind]
    exact ⟨by trivial, by trivial, totalAccess_incrementById hnodup hmem rfl,
      bumped_mem_incrementById hmem rfl,
      fun x hx hne => mem_incrementById_of_ne hx hne,
      length_incrementById s l.id⟩

/-- Witness for C4: at a concrete one-link store the redirect is a 301 to
the stored URL and the counter goes from 0 to 1. -/
theorem redirect_mode_increments_witness :
    3 ≤ "abc".length ∧ ([demoLink].map Link.id).Nodup ∧
    (redirectLink "abc" [demoLink]).1 = .moved301 "https://example.com" ∧
    totalAccess (redirectLink "abc" [demoLink]).2 = totalAccess [demoLink] + 1 := by
  have h := redirect_mode_increments "abc" [demoLink] (by decide) (by decide)
  have hl := h.2 demoLink (by decide)
  exact ⟨by decide, by decide, hl.1, hl.2.2.1⟩

/-! ### C8: manual visit increment -/

/-- C8: POST /api/links/:code/visit — the lookup matches on code (the
custom_name disjunct of the or(...) is commented out in the source, so the
single live disjunct is equality on code); an absent code is not-found
with no state change; a present code gets the same storage-layer increment
as redirect mode and a success acknowledgement with no redirect. -/
theorem visit_increments (c : String) (s : Store)
    (h3 : 3 ≤ c.length) (hnodup : (s.map Link.id).Nodup) :
    (findFirstByCode s c = none → visitLink c s = (.notFound, s)) ∧
    (∀ l, findFirstByCode s c = some l →
      (visitLink c s).1 = .success ∧
      (visitLink c s).2 = incrementById s l.id ∧
      (visitLink c s).2 = (redirectLink c s).2 ∧
      totalAccess (visitLink c s).2 = totalAccess s + 1 ∧
      { l with access_count := l.access_count + 1 } ∈ (visitLink c s).2 ∧
      (∀ x ∈ s, x.id ≠ l.id → x ∈ (visitLink c s).2)) := by
  have hcond : ¬ c.length < 3 := by omega
  constructor
  · intro hnone
    simp [visitLink, hcond, hnone]
  · intro l hfind
    obtain ⟨hmem, _⟩ := findFirstByCode_mem hfind
    simp only [visitLink, redirectLink, if_neg hcond, hfind]
    exact ⟨by trivial, by trivial, by trivial, totalAccess_incrementById hnodup hmem rfl,
      bumped_mem_incrementById hmem rfl,
      fun x hx hne => mem_incrementById_of_ne hx hne⟩

/-- Witness for C8 at a concrete store: success acknowledgement and the
counter goes up by exactly one. -/
theorem visit_increments_witness :
    3 ≤ "abc".length ∧ ([demoLink].map Link.id).Nodup ∧
    (visitLink "abc" [demoLink]).1 = .success ∧
    totalAccess (visitLink "abc" [demoLink]).2 = totalAccess [demoLink] + 1 := by
  have h := visit_increments "abc" [demoLink] (by decide) (by decide)
  have hl := h.2 demoLink (by decide)
  exact ⟨by decide, by decide, hl.1, hl.2.2.2.1⟩

/-! ### C9: deletion -/

/-- C9: DELETE /api/links/:code — an absent code is not-found with no
state change; a present code has exactly its record removed, a no-content
acknowledgement is returned, a subsequent lookup of the code is not-found,
and every record with a different code is still stored. -/
theorem delete_by_code (c : String) (s : Store)
    (h3 : 3 ≤ c.length) (hnodup : (s.map Link.code).Nodup) :
    (findFirstByCode s c = none → deleteLink c s = (.notFound, s)) ∧
    (∀ l, findFirstByCode s c = some l →
      (deleteLink c s).1 = .noContent ∧
      (deleteLink c s).2.length + 1 = s.length ∧
      findFirstByCode (deleteLink c s).2 c = none ∧
      (∀ x ∈ s, x.code ≠ c → x ∈ (deleteLink c s).2) ∧
      (∀ x ∈ (deleteLink c s).2, x ∈ s ∧ x.code ≠ c)) := by
  have hcond : ¬ c.length < 3 := by omega
  constructor
  · intro hnone
    have hall : ∀ l ∈ s, l.code ≠ c := findFirstByCode_eq_none_iff.mp hnone
    have hdel : s.filter (fun l => l.code == c) = [] :=
      List.filter_eq_nil_iff.mpr (fun a ha => by simp [hall a ha])
    have hkeep : s.filter (fun l => !(l.code == c)) = s :=
      List.filter_eq_self.mpr (fun a ha => by simp [hall a ha])
    simp [deleteLink, hcond, hdel, hkeep]
  · intro l hfind
    obtain ⟨hmem, hcode⟩ := findFirstByCode_mem hfind
    have hdel : s.filter (fun x => x.code == c) = [l] := filter_code_single hnodup hmem hcode
    have hlen := List.length_eq_length_filter_add (l := s) (fun x => x.code == c)
    simp only [deleteLink, if_neg hcond, hdel]
    refine ⟨by trivial, ?_, ?_, ?_, ?_⟩
    · rw [hdel] at hlen
      simp only [List.length_cons, List.length_nil] at hlen
      omega
    · exact findFirstByCode_eq_none_iff.mpr
        (fun x hx => by simpa using (List.mem_filter.mp hx).2)
    · intro x hx hne
      exact List.mem_filter.mpr ⟨hx, by simp [hne]⟩
    · intro x hx
      obtain ⟨hxs, hxc⟩ := List.mem_filter.mp hx
      exact ⟨hxs, by simpa using hxc⟩

/-- Witness for C9 at a concrete store: deleting the one stored code
returns no-content, empties the store, and a second lookup misses. -/
theorem delete_by_code_witness :
    3 ≤ "abc".length ∧ ([demoLink].map Link.code).Nodup ∧
    (deleteLink "abc" [demoLink]).1 = .noContent ∧
    findFirstByCode (deleteLink "abc" [demoLink]).2 "abc" = none := by
  have h := delete_by_code "abc" [demoLink] (by decide) (by decide)
  have hl := h.2 demoLink (by decide)
  exact ⟨by decide, by decide, hl.1, hl.2.2.1⟩

/-! ### Lemmas about code resolution and insertion -/

theorem nanoid_length (seed len : Nat) : (nanoid seed len).length = len := by
  simp [nanoid, String.length]

theorem nanoid_ne_empty (seed : Nat) {len : Nat} (h : 0 < len) : nanoid seed len ≠ "" := by
  intro he
  have hl := nanoid_length seed len
  rw [he] at hl
  simp [String.length] at hl
  omega

theorem nanoid_alphanum (seed len : Nat) :
    ∀ ch ∈ (nanoid seed len).data, ch.isAlphanum = true := by
  have halpha : ∀ c ∈ alphanumChars, c.isAlphanum = true := by decide
  intro ch hch
  simp only [nanoid] at hch
  obtain ⟨i, _, rfl⟩ := List.mem_map.mp hch
  exact halpha _ (List.get_mem _ _ _)

theorem resolveCode_custom {cn : String} (co : Option String) (g : String)
    (h : replaceFirst cn "brev.ly/" ≠ "") :
    resolveCode (some cn) co g = replaceFirst cn "brev.ly/" := by
  simp [resolveCode, jsOr, h]

theorem resolveCode_custom_empty {cn : String} (co : Option String) (g : String)
    (h : replaceFirst cn "brev.ly/" = "") :
    resolveCode (some cn) co g = jsOr co g := by
  simp [resolveCode, jsOr, h]

theorem resolveCode_none (co : Option String) (g : String) :
    resolveCode none co g = jsOr co g := rfl

theorem jsOr_some {c : String} (g : String) (h : c ≠ "") : jsOr (some c) g = c := by
  simp [jsOr, h]

theorem ne_empty_of_optMin3 {c : String} (h : optMin3 (some c) = true) : c ≠ "" := by
  intro he
  subst he
  simp [optMin3] at h

theorem insertLink_fresh {s : Store} {url c : String} {now : Nat}
    (hlen : c.length ≤ 10) (hfresh : findFirstByCode s c = none) :
    insertLink s url c now = .ok
      ({ id := nextId s, code := c, original_url := url, created_at := now, access_count := 0 },
       s ++ [{ id := nextId s, code := c, original_url := url, created_at := now, access_count := 0 }]) := by
  have hall := findFirstByCode_eq_none_iff.mp hfresh
  have hany : s.any (fun l => l.code == c) = false :=
    List.any_eq_false.mpr (fun x hx => by simp [hall x hx])
  have h10 : ¬ 10 < c.length := by omega
  simp [insertLink, h10, hany]

theorem insertLink_dup {s : Store} {url c : String} {now : Nat} {l : Link}
    (hl : l ∈ s) (hc : l.code = c) (hlen : c.length ≤ 10) :
    insertLink s url c now = .error .uniqueViolation := by
  have hany : s.any (fun x => x.code == c) = true :=
    List.any_eq_true.mpr ⟨l, hl, by simp [hc]⟩
  have h10 : ¬ 10 < c.length := by omega
  simp [insertLink, h10, hany]

theorem insertLink_long {s : Store} {url c : String} {now : Nat} (h : 10 < c.length) :
    insertLink s url c now = .error .valueTooLong := by
  simp [insertLink, h]

theorem createLink_valid (base g : String) (now : Nat) (url : String)
    (ic cn : Option String) (s : Store)
    (hv : isValidUrl url = true) (hic : optMin3 ic = true) (hcn : optMin3 cn = true) :
    createLink base g now url ic cn s =
      match insertLink s url (resolveCode cn ic g) now with
      | .ok (l, s2) => (.created l.id l.code (base ++ "/" ++ l.code), s2)
      | .error .uniqueViolation => (.conflict, s)
      | .error _ => (.serverError, s) := by
  simp [createLink, hv, hic, hcn]

/-! ### C1: code resolution precedence -/

/-- C1: the final code is resolved by precedence — a supplied custom_name
(after stripping the first occurrence of the literal brev.ly/, when the
result is nonempty) beats a supplied code, which beats the generated
code; the generated code is alphanumeric of length exactly 6, so with no
code and no custom_name a successful creation returns a 6-character code,
and with both supplied the stored code is the stripped custom_name. -/
theorem create_code_resolution (base : String) (seed now : Nat) (url : String) (s : Store) :
    (∀ cn co g, replaceFirst cn "brev.ly/" ≠ "" →
      resolveCode (some cn) co g = replaceFirst cn "brev.ly/") ∧
    (∀ c g, c ≠ "" → resolveCode none (some c) g = c) ∧
    (∀ g, resolveCode none none g = g) ∧
    ((nanoid seed 6).length = 6 ∧ ∀ ch ∈ (nanoid seed 6).data, ch.isAlphanum = true) ∧
    (isValidUrl url = true → findFirstByCode s (nanoid seed 6) = none →
      (createLink base (nanoid seed 6) now url none none s).1 =
        .created (nextId s) (nanoid seed 6) (base ++ "/" ++ nanoid seed 6)) ∧
    (∀ cn co g, isValidUrl url = true → optMin3 (some co) = true → optMin3 (some cn) = true →
      replaceFirst cn "brev.ly/" ≠ "" → (replaceFirst cn "brev.ly/").length ≤ 10 →
      findFirstByCode s (replaceFirst cn "brev.ly/") = none →
      createLink base g now url (some co) (some cn) s =
        (.created (nextId s) (replaceFirst cn "brev.ly/")
           (base ++ "/" ++ replaceFirst cn "brev.ly/"),
         s ++ [{ id := nextId s, code := replaceFirst cn "brev.ly/", original_url := url,
                 created_at := now, access_count := 0 }])) := by
  refine ⟨fun cn co g h => resolveCode_custom co g h,
    fun c g h => (resolveCode_none (some c) g).trans (jsOr_some g h),
    fun g => rfl,
    ⟨nanoid_length seed 6, nanoid_alphanum seed 6⟩, ?_, ?_⟩
  · intro hv hfresh
    have h10 : (nanoid seed 6).length ≤ 10 := by rw [nanoid_length]; omega
    rw [createLink_valid base (nanoid seed 6) now url none none s hv rfl rfl]
    rw [show resolveCode none none (nanoid seed 6) = nanoid seed 6 from rfl]
    rw [insertLink_fresh h10 hfresh]
  · intro cn co g hv hco hcn hne h10 hfresh
    rw [createLink_valid base g now url (some co) (some cn) s hv hco hcn]
    rw [resolveCode_custom (some co) g hne]
    rw [insertLink_fresh h10 hfresh]

/-- Witness for C1: on an empty store, no inputs give the 6-character
generated code, and supplying both code and custom_name stores the
stripped custom_name. -/
theorem create_code_resolution_witness :
    isValidUrl "https://example.com" = true ∧
    findFirstByCode ([] : Store) (nanoid 0 6) = none ∧
    (createLink "https://brev.ly" (nanoid 0 6) 0 "https://example.com" none none ([] : Store)).1 =
      .created (nextId ([] : Store)) (nanoid 0 6) ("https://brev.ly" ++ "/" ++ nanoid 0 6) ∧
    createLink "https://brev.ly" "GENER8" 0 "https://example.com"
        (some "mycode") (some "brev.ly/custom") ([] : Store) =
      (.created (nextId ([] : Store)) (replaceFirst "brev.ly/custom" "brev.ly/")
         ("https://brev.ly" ++ "/" ++ replaceFirst "brev.ly/custom" "brev.ly/"),
       [] ++ [{ id := nextId ([] : Store), code := replaceFirst "brev.ly/custom" "brev.ly/",
                original_url := "https://example.com", created_at := 0, access_count := 0 }]) ∧
    replaceFirst "brev.ly/custom" "brev.ly/" = "custom" := by
  have h := create_code_resolution "https://brev.ly" 0 0 "https://example.com" ([] : Store)
  exact ⟨by decide, by decide, h.2.2.2.2.1 (by decide) (by decide),
    h.2.2.2.2.2 "brev.ly/custom" "mycode" "GENER8" (by decide) (by decide) (by decide)
      (by decide) (by decide) (by decide), by decide⟩

/-! ### C2: length bounds of the resolved code -/

/-- C2 as stated is false: a custom_name of brev.ly/ab passes the min-3
input validation, strips to the 2-character code ab, and is created and
stored with length below 3. -/
theorem resolved_code_length_cex :
    optMin3 (some "brev.ly/ab") = true ∧
    (createLink "https://brev.ly" (nanoid 0 6) 0 "https://example.com"
        none (some "brev.ly/ab") ([] : Store)).1 = .created 1 "ab" "https://brev.ly/ab" ∧
    (createLink "https://brev.ly" (nanoid 0 6) 0 "https://example.com"
        none (some "brev.ly/ab") ([] : Store)).2 =
      [{ id := 1, code := "ab", original_url := "https://example.com",
         created_at := 0, access_count := 0 }] ∧
    ("ab" : String).length < 3 := by
  exact ⟨by decide, by decide, by decide, by decide⟩

/-- C2 amended: the resolved code has length at least 3 on the
caller-supplied-code path and is exactly 6 characters (hence within 3..10)
on the generated path, but the custom-name path can fall below 3 after
stripping, and no 10-character bound is checked by the application — an
over-long caller code is submitted to storage and surfaces as a 500. -/
theorem resolved_code_length_amended (seed : Nat) (co : Option String)
    (hco : optMin3 co = true) :
    3 ≤ (resolveCode none co (nanoid seed 6)).length ∧
    (resolveCode none none (nanoid seed 6)).length = 6 ∧
    (resolveCode none none (nanoid seed 6)).length ≤ 10 ∧
    (∀ base g now url s, isValidUrl url = true →
      createLink base g now url (some "abcdefghijk") none s = (.serverError, s)) := by
  refine ⟨?_, ?_, ?_, ?_⟩
  · cases co with
    | none =>
      rw [resolveCode_none, show jsOr none (nanoid seed 6) = nanoid seed 6 from rfl,
        nanoid_length]
      omega
    | some c =>
      have hne : c ≠ "" := ne_empty_of_optMin3 hco
      rw [resolveCode_none, jsOr_some _ hne]
      simpa [optMin3] using hco
  · rw [resolveCode_none, show jsOr none (nanoid seed 6) = nanoid seed 6 from rfl,
      nanoid_length]
  · rw [resolveCode_none, show jsOr none (nanoid seed 6) = nanoid seed 6 from rfl,
      nanoid_length]
    omega
  · intro base g now url s hv
    rw [createLink_valid base g now url (some "abcdefghijk") none s hv (by decide) rfl]
    rw [show resolveCode none (some "abcdefghijk") g = "abcdefghijk" from
      (resolveCode_none _ g).trans (jsOr_some g (by decide))]
    rw [insertLink_long (by decide)]

/-- Witness for the amended C2 at concrete inputs. -/
theorem resolved_code_length_amended_witness :
    optMin3 (some "code1") = true ∧
    3 ≤ (resolveCode none (some "code1") (nanoid 0 6)).length ∧
    (resolveCode none none (nanoid 0 6)).length = 6 ∧
    isValidUrl "https://example.com" = true ∧
    createLink "https://brev.ly" "GENER8" 0 "https://example.com"
        (some "abcdefghijk") none ([] : Store) = (.serverError, ([] : Store)) := by
  have h := resolved_code_length_amended 0 (some "code1") (by decide)
  exact ⟨by decide, h.1, h.2.1, by decide,
    h.2.2.2 "https://brev.ly" "GENER8" 0 "https://example.com" ([] : Store) (by decide)⟩

/-! ### C5: conflict handling of creation -/

/-- C5: a unique-constraint violation on the resolved code surfaces as the
conflict response with the store unchanged (no retry under another code),
any other storage failure surfaces as a 500, and two creations of the same
resolved code yield exactly one success, one conflict, and one stored row
with that code. -/
theorem create_conflict_once (base g g2 url url2 : String) (now now2 : Nat)
    (c : String) (s : Store)
    (hurl : isValidUrl url = true) (hurl2 : isValidUrl url2 = true)
    (hc3 : 3 ≤ c.length) (hc10 : c.length ≤ 10)
    (hfresh : findFirstByCode s c = none) :
    (createLink base g now url (some c) none s).1 = .created (nextId s) c (base ++ "/" ++ c) ∧
    (createLink base g now url (some c) none s).2 =
      s ++ [{ id := nextId s, code := c, original_url := url,
              created_at := now, access_count := 0 }] ∧
    (createLink base g2 now2 url2 (some c) none
        ((createLink base g now url (some c) none s).2)).1 = .conflict ∧
    (createLink base g2 now2 url2 (some c) none
        ((createLink base g now url (some c) none s).2)).2 =
      (createLink base g now url (some c) none s).2 ∧
    ((createLink base g now url (some c) none s).2.filter (fun x => x.code == c)).length = 1 ∧
    (∀ urlx gx nowx cx, isValidUrl urlx = true → 10 < cx.length →
      createLink base gx nowx urlx (some cx) none s = (.serverError, s)) := by
  have hne : c ≠ "" := by
    intro he
    rw [he] at hc3
    simp [String.length] at hc3
  have hmin : optMin3 (some c) = true := by simpa [optMin3] using hc3
  have hres : resolveCode none (some c) g = c := (resolveCode_none _ g).trans (jsOr_some g hne)
  have hres2 : resolveCode none (some c) g2 = c := (resolveCode_none _ g2).trans (jsOr_some g2 hne)
  have hrow : createLink base g now url (some c) none s =
      (.created (nextId s) c (base ++ "/" ++ c),
       s ++ [{ id := nextId s, code := c, original_url := url,
               created_at := now, access_count := 0 }]) := by
    rw [createLink_valid base g now url (some c) none s hurl hmin rfl, hres,
      insertLink_fresh hc10 hfresh]
  have hmem : ({ id := nextId s, code := c, original_url := url,
                 created_at := now, access_count := 0 } : Link) ∈
      (createLink base g now url (some c) none s).2 := by
    rw [hrow]
    exact List.mem_append.mpr (Or.inr (List.mem_singleton.mpr rfl))
  have hconf : createLink base g2 now2 url2 (some c) none
      ((createLink base g now url (some c) none s).2) =
      (.conflict, (createLink base g now url (some c) none s).2) := by
    rw [createLink_valid _ g2 now2 url2 (some c) none _ hurl2 hmin rfl, hres2,
      insertLink_dup hmem rfl hc10]
  refine ⟨by rw [hrow], by rw [hrow], by rw [hconf], by rw [hconf], ?_, ?_⟩
  · rw [hrow]
    have hall := findFirstByCode_eq_none_iff.mp hfresh
    have hnil : s.filter (fun x => x.code == c) = [] :=
      List.filter_eq_nil_iff.mpr (fun a ha => by simp [hall a ha])
    simp [List.filter_append, hnil]
  · intro urlx gx nowx cx hvx hcx
    have hminx : optMin3 (some cx) = true := by
      have : 3 ≤ cx.length := by omega
      simpa [optMin3] using this
    have hnex : cx ≠ "" := ne_empty_of_optMin3 hminx
    rw [createLink_valid base gx nowx urlx (some cx) none s hvx hminx rfl,
      (resolveCode_none _ gx).trans (jsOr_some gx hnex), insertLink_long hcx]

/-- Witness for C5: two creations of the code abc on an empty store give
one success then one conflict, with a single stored row. -/
theorem create_conflict_once_witness :
    isValidUrl "https://example.com" = true ∧ isValidUrl "https://example.org" = true ∧
    3 ≤ ("abc" : String).length ∧ ("abc" : String).length ≤ 10 ∧
    findFirstByCode ([] : Store) "abc" = none ∧
    (createLink "https://brev.ly" "g1word" 0 "https://example.com" (some "abc") none
        ([] : Store)).1 = .created (nextId ([] : Store)) "abc" ("https://brev.ly" ++ "/" ++ "abc") ∧
    (createLink "https://brev.ly" "g2word" 1 "https://example.org" (some "abc") none
        ((createLink "https://brev.ly" "g1word" 0 "https://example.com" (some "abc") none
          ([] : Store)).2)).1 = .conflict ∧
    ((createLink "https://brev.ly" "g1word" 0 "https://example.com" (some "abc") none
        ([] : Store)).2.filter (fun x => x.code == "abc")).length = 1 := by
  have h := create_conflict_once "https://brev.ly" "g1word" "g2word"
    "https://example.com" "https://example.org" 0 1 "abc" ([] : Store)
    (by decide) (by decide) (by decide) (by decide) (by decide)
  exact ⟨by decide, by decide, by decide, by decide, by decide, h.1, h.2.2.1, h.2.2.2.2.1⟩

/-! ### C10: empty cleaned custom name falls back -/

/-- C10: a custom_name equal to the literal brev.ly/ passes the min-3
validation, strips to the empty string, and the resolver falls back to the
caller code or the generated 6-character code; a validated input never
resolves to the empty string. -/
theorem empty_cleaned_custom_fallback (seed : Nat) (co : Option String) (cn g : String)
    (hco : optMin3 co = true) :
    replaceFirst "brev.ly/" "brev.ly/" = "" ∧
    optMin3 (some "brev.ly/") = true ∧
    (∀ c, co = some c → resolveCode (some "brev.ly/") co g = c) ∧
    (co = none → resolveCode (some "brev.ly/") co (nanoid seed 6) = nanoid seed 6 ∧
      (nanoid seed 6).length = 6) ∧
    resolveCode (some cn) co (nanoid seed 6) ≠ "" := by
  refine ⟨by decide, by decide, ?_, ?_, ?_⟩
  · intro c hc
    subst hc
    have hne : c ≠ "" := ne_empty_of_optMin3 hco
    rw [resolveCode_custom_empty _ g (by decide), jsOr_some g hne]
  · intro hc
    subst hc
    exact ⟨resolveCode_custom_empty _ _ (by decide), nanoid_length seed 6⟩
  · by_cases hcn : replaceFirst cn "brev.ly/" = ""
    · rw [resolveCode_custom_empty _ _ hcn]
      cases co with
      | none => exact nanoid_ne_empty seed (by omega)
      | some c =>
        rw [jsOr_some _ (ne_empty_of_optMin3 hco)]
        exact ne_empty_of_optMin3 hco
    · rw [resolveCode_custom _ _ hcn]
      exact hcn

/-- Witness for C10 at concrete inputs: custom_name brev.ly/ falls back to
the supplied code, or to the generated code when no code is supplied. -/
theorem empty_cleaned_custom_fallback_witness :
    optMin3 (some "xyzcd") = true ∧
    resolveCode (some "brev.ly/") (some "xyzcd") "GENER8" = "xyzcd" ∧
    resolveCode (some "brev.ly/") none (nanoid 3 6) = nanoid 3 6 ∧
    resolveCode (some "brev.ly/") (some "xyzcd") (nanoid 3 6) ≠ "" := by
  have h1 := empty_cleaned_custom_fallback 3 (some "xyzcd") "brev.ly/" "GENER8" (by decide)
  have h2 := empty_cleaned_custom_fallback 3 none "brev.ly/" "GENER8" rfl
  exact ⟨by decide, h1.2.2.1 "xyzcd" rfl, (h2.2.2.2.1 rfl).1, h1.2.2.2.2⟩

/-! ### Lemmas about CSV formatting and ordering -/

theorem sortByCreatedDesc_sorted (s : Store) : List.Sorted byNewest (sortByCreatedDesc s) :=
  List.sorted_insertionSort byNewest s

theorem sortByCreatedDesc_perm (s : Store) : (sortByCreatedDesc s).Perm s :=
  List.perm_insertionSort byNewest s

theorem newlineCount_append (a b : String) :
    newlineCount (a ++ b) = newlineCount a + newlineCount b := by
  simp [newlineCount, String.data_append, List.filter_append]

theorem newlineCount_joinWith (rows : List String)
    (h : ∀ r ∈ rows, newlineCount r = 0) (hne : rows ≠ []) :
    newlineCount (joinWith "\n" rows) = rows.length - 1 := by
  induction rows with
  | nil => cases hne rfl
  | cons x xs ih =>
    cases xs with
    | nil =>
      rw [show joinWith "\n" [x] = x from rfl, h x (by simp)]
      simp
    | cons y ys =>
      rw [show joinWith "\n" (x :: y :: ys) = x ++ "\n" ++ joinWith "\n" (y :: ys) from rfl]
      rw [newlineCount_append, newlineCount_append,
        h x (by simp), ih (fun r hr => h r (by simp [hr])) (by simp),
        show newlineCount "\n" = 1 from by decide]
      simp [List.length_cons]
      omega

theorem takeWhile_append_of_all {p : Char → Bool} (l1 l2 : List Char) (c0 : Char)
    (h1 : ∀ c ∈ l1, p c = true) (hc : p c0 = false) :
    (l1 ++ c0 :: l2).takeWhile p = l1 := by
  induction l1 with
  | nil => simp [List.takeWhile_cons, hc]
  | cons a as ih =>
    rw [List.cons_append, List.takeWhile_cons, h1 a (by simp)]
    simp only [ite_true]
    rw [ih (fun c hcm => h1 c (by simp [hcm]))]

theorem csvHeader_data :
    csvHeader.data =
      "URL original,URL encurtada,Contagem de acessos,Data de criação".data ++ ['\n'] := by
  decide

theorem firstLine_header (rest : String) :
    firstLine (csvHeader ++ rest) =
      "URL original,URL encurtada,Contagem de acessos,Data de criação" := by
  unfold firstLine
  rw [String.data_append, csvHeader_data, List.append_assoc, List.singleton_append]
  rw [takeWhile_append_of_all _ _ _ (by decide) (by decide)]

/-! ### C6: CSV export -/

/-- C6 as stated is false: the first line of the uploaded file is the
fixed Portuguese header row, not the header row named by the claim. -/
theorem export_csv_header_cex :
    firstLine ((exportCsv "https://brev.ly" "u" [demoLink]).2.headD ("", "")).2 =
      "URL original,URL encurtada,Contagem de acessos,Data de criação" ∧
    firstLine ((exportCsv "https://brev.ly" "u" [demoLink]).2.headD ("", "")).2 ≠
      "original url, short url, access count, creation date" := by
  exact ⟨by decide, by decide⟩

/-- C6 amended: an empty store is a 400 with nothing uploaded; a nonempty
store uploads, under the random uuid key with a .csv extension, a CSV whose
first line is the fixed Portuguese header row (URL original,URL
encurtada,Contagem de acessos,Data de criação) followed by one row per
stored record in created_at-descending order — stored-count-plus-one rows —
and the public base URL joined with a slash and the key is returned. -/
theorem export_csv_amended (base uuid : String) (s : Store)
    (hnl : ∀ l ∈ s, newlineCount (csvRow base l) = 0) :
    (s = [] → exportCsv base uuid s = (.badRequest, [])) ∧
    (s ≠ [] →
      (exportCsv base uuid s).1 = .created (base ++ "/" ++ (uuid ++ ".csv")) ∧
      (exportCsv base uuid s).2.map Prod.fst = [uuid ++ ".csv"] ∧
      (∀ content, (exportCsv base uuid s).2.map Prod.snd = [content] →
        csvRowCount content = s.length + 1 ∧
        firstLine content =
          "URL original,URL encurtada,Contagem de acessos,Data de criação" ∧
        content = csvHeader ++ joinWith "\n" ((sortByCreatedDesc s).map (csvRow base))) ∧
      List.Sorted byNewest (sortByCreatedDesc s) ∧
      (sortByCreatedDesc s).Perm s) := by
  constructor
  · intro he
    subst he
    rfl
  · intro hne
    have hlen : (sortByCreatedDesc s).length = s.length := (sortByCreatedDesc_perm s).length_eq
    have hpos : 0 < s.length := List.length_pos.mpr hne
    have hcond : ¬ (sortByCreatedDesc s).length = 0 := by omega
    refine ⟨by simp [exportCsv, hcond], by simp [exportCsv, hcond], ?_,
      sortByCreatedDesc_sorted s, sortByCreatedDesc_perm s⟩
    intro content hcontent
    simp only [exportCsv, if_neg hcond, List.map_cons, List.map_nil] at hcontent
    have hceq : content = csvHeader ++ joinWith "\n" ((sortByCreatedDesc s).map (csvRow base)) := by
      simpa using hcontent.symm
    refine ⟨?_, hceq ▸ firstLine_header _, hceq⟩
    have hrows : ∀ r ∈ (sortByCreatedDesc s).map (csvRow base), newlineCount r = 0 := by
      intro r hr
      obtain ⟨l, hl, rfl⟩ := List.mem_map.mp hr
      exact hnl l ((sortByCreatedDesc_perm s).subset hl)
    have hrne : (sortByCreatedDesc s).map (csvRow base) ≠ [] := by
      intro hnil
      have h0 := congrArg List.length hnil
      rw [List.length_map] at h0
      simp only [List.length_nil] at h0
      omega
    have hjoin := newlineCount_joinWith _ hrows hrne
    have hlen2 : ((sortByCreatedDesc s).map (csvRow base)).length = s.length := by
      rw [List.length_map, hlen]
    rw [hceq]
    unfold csvRowCount
    rw [newlineCount_append, hjoin, hlen2, show newlineCount csvHeader = 1 from by decide]
    omega

/-- Witness for the amended C6 at a concrete store: one stored link gives
a two-row file under key u.csv, and an empty store gives the 400. -/
theorem export_csv_amended_witness :
    (∀ l ∈ ([demoLink] : Store), newlineCount (csvRow "https://brev.ly" l) = 0) ∧
    (exportCsv "https://brev.ly" "u" [demoLink]).1 =
      .created ("https://brev.ly" ++ "/" ++ ("u" ++ ".csv")) ∧
    (exportCsv "https://brev.ly" "u" [demoLink]).2.map Prod.fst = ["u" ++ ".csv"] ∧
    exportCsv "https://brev.ly" "u" ([] : Store) = (.badRequest, []) := by
  have h := export_csv_amended "https://brev.ly" "u" [demoLink] (by decide)
  have h0 := export_csv_amended "https://brev.ly" "u" ([] : Store) (by simp)
  exact ⟨by decide, (h.2 (by simp)).1, (h.2 (by simp)).2.1, h0.1 rfl⟩

/-! ### C7: listing -/

/-- C7 as stated is false in its integer-coercion clause: the query schema
coerces to numbers, not integers, so the non-integer page value 5/2 passes
validation instead of being rejected. -/
theorem listing_noninteger_cex :
    parseListQuery (some ((5 : ℚ)/2)) none = some ((5 : ℚ)/2, 10) ∧
    ((5 : ℚ)/2).den ≠ 1 := by
  constructor
  · simp only [parseListQuery, parsePage, parsePageSize]
    norm_num
  · norm_num

/-- C7 amended: page defaults to 1 with minimum 1 and pageSize defaults to
10 with range 10..100, both coerced to numbers (not necessarily integers)
with out-of-range values rejected; for integral parameters the result is
the stored links newest created_at first, sliced to pageSize records from
offset (page - 1) * pageSize, each carrying the computed short_url, and
the stored state is not mutated. -/
theorem listing_amended (base : String) (page pageSize : Nat) (s : Store)
    (hp : 1 ≤ page) (hps : 10 ≤ pageSize) (hps2 : pageSize ≤ 100) :
    (listLinks base page pageSize s).2 = s ∧
    (listLinks base page pageSize s).1.length ≤ pageSize ∧
    (∀ v ∈ (listLinks base page pageSize s).1, ∃ l, l ∈ s ∧ v = viewOf base l) ∧
    List.Pairwise (fun a b : LinkView => b.created_at ≤ a.created_at)
      (listLinks base page pageSize s).1 ∧
    (listLinks base page pageSize s).1 =
      (((sortByCreatedDesc s).drop ((page - 1) * pageSize)).take pageSize).map (viewOf base) ∧
    parseListQuery none none = some (1, 10) ∧
    (∀ x : ℚ, x < 1 → ∀ q, parseListQuery (some x) q = none) ∧
    (∀ y : ℚ, y < 10 ∨ 100 < y → ∀ p, parseListQuery p (some y) = none) ∧
    (∀ x y : ℚ, 1 ≤ x → 10 ≤ y → y ≤ 100 →
      parseListQuery (some x) (some y) = some (x, y)) ∧
    parseListQuery (some (page : ℚ)) (some (pageSize : ℚ)) =
      some ((page : ℚ), (pageSize : ℚ)) := by
  refine ⟨rfl, ?_, ?_, ?_, rfl, rfl, ?_, ?_, ?_, ?_⟩
  · simp only [listLinks, List.length_map, List.length_take]
    exact Nat.min_le_left _ _
  · intro v hv
    simp only [listLinks] at hv
    obtain ⟨l, hl, rfl⟩ := List.mem_map.mp hv
    have hl2 : l ∈ (sortByCreatedDesc s).drop ((page - 1) * pageSize) :=
      (List.take_sublist _ _).subset hl
    have hl3 : l ∈ sortByCreatedDesc s := (List.drop_sublist _ _).subset hl2
    exact ⟨l, (sortByCreatedDesc_perm s).subset hl3, rfl⟩
  · have hs : List.Pairwise byNewest (sortByCreatedDesc s) := sortByCreatedDesc_sorted s
    have h1 : List.Pairwise byNewest ((sortByCreatedDesc s).drop ((page - 1) * pageSize)) :=
      hs.sublist (List.drop_sublist _ _)
    have h2 : List.Pairwise byNewest
        (((sortByCreatedDesc s).drop ((page - 1) * pageSize)).take pageSize) :=
      h1.sublist (List.take_sublist _ _)
    exact List.pairwise_map.mpr (h2.imp fun h => h)
  · intro x hx q
    have hnx : ¬ 1 ≤ x := not_le.mpr hx
    simp only [parseListQuery, parsePage, if_neg hnx]
  · intro y hy p
    have hny : ¬ (10 ≤ y ∧ y ≤ 100) := by
      rcases hy with h | h
      · exact fun hc => absurd hc.1 (not_le.mpr h)
      · exact fun hc => absurd hc.2 (not_le.mpr h)
    simp only [parseListQuery, parsePageSize, if_neg hny]
    cases parsePage p <;> rfl
  · intro x y hx hy1 hy2
    simp only [parseListQuery, parsePage, parsePageSize, if_pos hx,
      if_pos (And.intro hy1 hy2)]
  · have hx : (1 : ℚ) ≤ (page : ℚ) := by exact_mod_cast hp
    have hy1 : (10 : ℚ) ≤ (pageSize : ℚ) := by exact_mod_cast hps
    have hy2 : ((pageSize : ℚ)) ≤ 100 := by exact_mod_cast hps2
    simp only [parseListQuery, parsePage, parsePageSize, if_pos hx,
      if_pos (And.intro hy1 hy2)]

/-- Witness for the amended C7: default parameters on a concrete store,
acceptance of the validated integers 1 and 10, and concrete rejection of
the out-of-range values page 0 and pageSize 101. -/
theorem listing_amended_witness :
    1 ≤ 1 ∧ 10 ≤ 10 ∧ 10 ≤ 100 ∧
    (listLinks "https://brev.ly" 1 10 [demoLink]).2 = [demoLink] ∧
    (listLinks "https://brev.ly" 1 10 [demoLink]).1.length ≤ 10 ∧
    parseListQuery (some (0 : ℚ)) none = none ∧
    parseListQuery none (some (101 : ℚ)) = none ∧
    parseListQuery (some (2 : ℚ)) (some (100 : ℚ)) = some (2, 100) := by
  have h := listing_amended "https://brev.ly" 1 10 [demoLink]
    (by norm_num) (by norm_num) (by norm_num)
  exact ⟨by norm_num, by norm_num, by norm_num, h.1, h.2.1,
    h.2.2.2.2.2.2.1 0 (by norm_num) none,
    h.2.2.2.2.2.2.2.1 101 (Or.inr (by norm_num)) none,
    h.2.2.2.2.2.2.2.2.1 2 100 (by norm_num) (by norm_num) (by norm_num)⟩

end Brevly
